import Mathlib

/-!
Verification of the AIGENTS vocal biomarker service
(`packages/biomarker-service/biomarker_service.py`).

The Python source is shallowly embedded below.  Machine floats are
modelled as rationals (every constant the decision logic uses —
0.5, 1.0, 32768 — is exactly representable, and the clamp/compare
logic is exact).  External library calls (librosa feature math,
sklearn StandardScaler / IsolationForest, base64) are modelled as
oracle parameters; everything written in the repository itself is
translated directly.
-/

set_option maxRecDepth 8000

namespace Biomarker

/-- The `l[-n:]` in Python: the last `n` elements of `l` (all of `l` when
`n ≥ l.length`).  Also the effect of `deque(maxlen := n)` after an
`extend`. -/
def takeLast {α : Type} (l : List α) (n : Nat) : List α :=
  l.drop (l.length - n)

/-! ## AudioBuffer (source lines 40–62)

`deque(maxlen = buffer_size)` keeps the last `buffer_size` elements;
`add_frame` extends the deque, bumps `frame_count` and reports whether
`len(buffer) >= buffer_size`. -/

structure AudioBuffer where
  sample_rate : Nat
  buffer_size : Nat
  buffer : List ℚ
  frame_count : Nat

/-- The `AudioBuffer()` with the default arguments:
`sample_rate = 8000`, `buffer_duration = 3.0`, so
`buffer_size = int(8000 * 3.0) = 24000`. -/
def AudioBuffer.init : AudioBuffer :=
  { sample_rate := 8000, buffer_size := 24000, buffer := [], frame_count := 0 }

/-- The `AudioBuffer.add_frame`: extend the (max-length-bounded) deque,
count the frames, and return whether the buffer is full. -/
def AudioBuffer.add_frame (b : AudioBuffer) (audio_data : List ℚ) :
    AudioBuffer × Bool :=
  let newBuffer := takeLast (b.buffer ++ audio_data) b.buffer_size
  ({ b with buffer := newBuffer, frame_count := b.frame_count + audio_data.length },
   decide (b.buffer_size ≤ newBuffer.length))

/-- The `AudioBuffer.get_buffer`: the current contents, oldest first. -/
def AudioBuffer.get_buffer (b : AudioBuffer) : List ℚ := b.buffer

/-- The `AudioBuffer.clear`: empty the deque and reset `frame_count`. -/
def AudioBuffer.clear (b : AudioBuffer) : AudioBuffer :=
  { b with buffer := [], frame_count := 0 }

/-! ## μ-law decoding (source lines 254–286) -/

/-- The `MULAW_BIAS` constant of `decode_mulaw`. -/
def MULAW_BIAS : Nat := 0x84

/-- The `MULAW_MAX` constant of `decode_mulaw` (defined but unused in the
source). -/
def MULAW_MAX : Nat := 0x1FFF

/-- The unsigned magnitude computed by the loop body of `decode_mulaw`
from the already bit-inverted byte `b`: exponent is bits 6–4, mantissa
bits 3–0, `magnitude = exponent == 0 ? (mantissa<<1)+BIAS
: ((mantissa<<1)+BIAS) << (exponent-1)`. -/
def mulawMagnitude (b : Nat) : Nat :=
  let exponent := (b &&& 0x70) >>> 4
  let mantissa := b &&& 0x0F
  if exponent = 0 then (mantissa <<< 1) + MULAW_BIAS
  else ((mantissa <<< 1) + MULAW_BIAS) <<< (exponent - 1)

/-- Decode a single μ-law byte exactly as the loop body of
`decode_mulaw` does: invert the bits, split off the sign (bit 7),
rebuild the magnitude from exponent and mantissa, apply the sign and
normalise by 32768. -/
def mulawDecodeByte (byte : Nat) : ℚ :=
  let b := byte ^^^ 0xFF
  let sign := b &&& 0x80
  let decoded_val : ℤ :=
    if sign ≠ 0 then -(mulawMagnitude b : ℤ) else (mulawMagnitude b : ℤ)
  (decoded_val : ℚ) / 32768

/-- The `BiomarkerService.decode_mulaw`: one decoded sample per input
byte, in input order.  (The `try/except` around the loop cannot fire
for a byte string, so the fallback `np.array([])` branch is
unreachable and the function is total.) -/
def decode_mulaw (encoded_data : List Nat) : List ℚ :=
  encoded_data.map mulawDecodeByte

/-! ## FeatureExtractor (source lines 64–176)

A Python `dict` preserves insertion order, so a feature dictionary is
modelled as an association list; `list(features.values())` is
`List.map Prod.snd`. -/

/-- The `_get_zero_features` dictionary: twelve scalar entries in the
literal's order, then the 13 MFCC mean/std pairs appended by the
`for i in range(13)` loop. -/
def zeroFeatures : List (String × ℚ) :=
  [("f0_mean", 0), ("f0_std", 0), ("f0_range", 0),
   ("spectral_centroid_mean", 0), ("spectral_centroid_std", 0),
   ("spectral_rolloff_mean", 0),
   ("zcr_mean", 0), ("zcr_std", 0),
   ("rms_mean", 0), ("rms_std", 0),
   ("log_energy_mean", 0), ("log_energy_std", 0)]
  ++ (List.range 13).flatMap
      (fun i => [("mfcc_" ++ toString i ++ "_mean", (0 : ℚ)),
                 ("mfcc_" ++ toString i ++ "_std", (0 : ℚ))])

/-- The key insertion order of the success path of
`extract_basic_features`: f0 block (3), spectral block (5), the MFCC
loop (26), then the energy block (4).  Every internal `except` branch
inserts the same keys at the same positions, so this order is
independent of which librosa calls succeed. -/
def extractFeatureKeys : List String :=
  ["f0_mean", "f0_std", "f0_range",
   "spectral_centroid_mean", "spectral_centroid_std",
   "spectral_rolloff_mean", "zcr_mean", "zcr_std"]
  ++ (List.range 13).flatMap
      (fun i => ["mfcc_" ++ toString i ++ "_mean",
                 "mfcc_" ++ toString i ++ "_std"])
  ++ ["rms_mean", "rms_std", "log_energy_mean", "log_energy_std"]

/-- The `FeatureExtractor.extract_basic_features`.  The guard
`len(audio) == 0 or np.all(audio == 0)` returns the zero dictionary;
the librosa-based body is the external feature backend, modelled by
`oracle` (`none` models an exception caught at the top-level `except`,
which also returns the zero dictionary). -/
def extract_basic_features (oracle : List ℚ → Option (List (String × ℚ)))
    (audio : List ℚ) : List (String × ℚ) :=
  if audio.length = 0 ∨ ∀ x ∈ audio, x = 0 then zeroFeatures
  else
    match oracle audio with
    | some features => features
    | none => zeroFeatures

/-! ## RiskAssessment (source lines 178–241) -/

/-- The `self.min_samples = 10` in `RiskAssessment.__init__`. -/
def min_samples : Nat := 10

/-- The local `max_history = 100` of `update_patient_model`. -/
def max_history : Nat := 100

/-- Per-patient state of `RiskAssessment`.  The sklearn objects are
external; only their presence in the `models` / `scalers` dicts is
tracked.  `feature_history` is a `defaultdict(list)`, hence a total
function into lists. -/
structure RiskAssessment where
  models : String → Bool
  scalers : String → Bool
  feature_history : String → List (List ℚ)

/-- The `RiskAssessment()` as built in `BiomarkerService.__init__`. -/
def RiskAssessment.init : RiskAssessment :=
  { models := fun _ => false, scalers := fun _ => false,
    feature_history := fun _ => [] }

/-- Python dict assignment `d[k] = v` on a (total-function) map. -/
def setKey {α : Type} (f : String → α) (k : String) (v : α) : String → α :=
  fun x => if x = k then v else f x

/-- Lines 195–200: append the vector, then
`history = history[-max_history:]` when the length exceeds 100. -/
def historyAppend (hist : List (List ℚ)) (v : List ℚ) : List (List ℚ) :=
  let h := hist ++ [v]
  if h.length > max_history then h.drop (h.length - max_history) else h

/-- Line 235: `max(0.0, min(1.0, (0.5 - anomaly_score) / 1.0))`. -/
def riskFromScore (anomaly_score : ℚ) : ℚ :=
  max 0 (min 1 ((1 / 2 - anomaly_score) / 1))

/-- Outcome of the sklearn calls in the `try` block of
`update_patient_model` (lines 207–237).  `ok raw` is a successful
fit/score returning `decision_function(...)[0] = raw`;
the fault constructors name where in the block the exception was
raised: `arrayFault` before the scaler dict entry is written,
`scaleFault` in `fit_transform` (after the scaler entry is written),
`modelFault` in the forest's `fit`/`decision_function` (after both
entries are written; the `IsolationForest(...)` constructor itself is
assumed not to raise). -/
inductive ModelOutcome where
  | ok (raw : ℚ)
  | arrayFault
  | scaleFault
  | modelFault

/-- The `RiskAssessment.update_patient_model`: append the vector's values
to the patient's history, trim to the last 100, warm up below
`min_samples`, otherwise fit and score through the sklearn oracle and
clamp `(0.5 - raw) / 1.0` into `[0, 1]`; any exception in the `try`
block yields `(0.0, "error")`. -/
def update_patient_model (ra : RiskAssessment) (patient_id : String)
    (features : List (String × ℚ)) (outcome : ModelOutcome) :
    RiskAssessment × ℚ × String :=
  let feature_vector := features.map Prod.snd
  let hist := historyAppend (ra.feature_history patient_id) feature_vector
  let ra1 := { ra with feature_history := setKey ra.feature_history patient_id hist }
  if hist.length < min_samples then (ra1, 0, "warming_up")
  else
    match outcome with
    | .arrayFault => (ra1, 0, "error")
    | .scaleFault =>
        ({ ra1 with scalers := setKey ra1.scalers patient_id true }, 0, "error")
    | .modelFault =>
        ({ ra1 with scalers := setKey ra1.scalers patient_id true,
                    models := setKey ra1.models patient_id true }, 0, "error")
    | .ok raw =>
        ({ ra1 with scalers := setKey ra1.scalers patient_id true,
                    models := setKey ra1.models patient_id true },
         riskFromScore raw, "ok")

/-! ## BiomarkerService (source lines 243–395) -/

/-- One `active_sessions` record (lines 318–322). -/
structure SessionInfo where
  start_time : ℚ
  frame_count : Nat
  last_risk : ℚ

/-- The outbound risk message (lines 351–358). -/
structure RiskRecord where
  type : String
  risk : ℚ
  status : String
  n : Nat
  chainRunId : String
  timestamp : ℚ

/-- The mutable state of a `BiomarkerService` instance. -/
structure BiomarkerService where
  host : String
  port : Nat
  risk_assessment : RiskAssessment
  audio_buffers : String → Option AudioBuffer
  active_sessions : String → Option SessionInfo

/-- The `BiomarkerService(host, port)`. -/
def BiomarkerService.init (host : String) (port : Nat) : BiomarkerService :=
  { host := host, port := port, risk_assessment := RiskAssessment.init,
    audio_buffers := fun _ => none, active_sessions := fun _ => none }

/-- The fields of the inbound JSON record that
`process_audio_message` reads (`message.get(...)`). -/
structure AudioMessage where
  type : Option String
  chainRunId : Option String
  audio : Option String
  timestamp : Option ℚ

/-- Lines 315–322 of `process_audio_message`: create the session's
buffer and `active_sessions` record when the id is unseen. -/
def ensureSession (now : ℚ) (svc : BiomarkerService) (cid : String) :
    BiomarkerService :=
  if (svc.audio_buffers cid).isNone then
    { svc with
      audio_buffers := setKey svc.audio_buffers cid (some AudioBuffer.init),
      active_sessions := setKey svc.active_sessions cid
        (some { start_time := now, frame_count := 0, last_risk := 0 }) }
  else svc

/-- Lines 315–358 of `process_audio_message`: get or create the
session's buffer and `active_sessions` record, add the decoded audio,
and when the buffer is full run extraction and risk assessment, clear
the buffer and build the outbound risk record.  `oracle` is the
librosa feature backend, `outcome` the sklearn call's behaviour for
this window, `now` the value of `time.time()`. -/
def sessionStep (oracle : List ℚ → Option (List (String × ℚ)))
    (outcome : ModelOutcome) (now : ℚ) (svc : BiomarkerService)
    (msg : AudioMessage) (cid : String) (audio_data : List ℚ) :
    BiomarkerService × Option RiskRecord :=
  let svc1 := ensureSession now svc cid
  let buf := (svc1.audio_buffers cid).getD AudioBuffer.init
  let sess := (svc1.active_sessions cid).getD
    { start_time := now, frame_count := 0, last_risk := 0 }
  let step := buf.add_frame audio_data
  let buf1 := step.1
  let buffer_full := step.2
  let sess1 := { sess with frame_count := sess.frame_count + audio_data.length }
  let svc2 := { svc1 with
    audio_buffers := setKey svc1.audio_buffers cid (some buf1),
    active_sessions := setKey svc1.active_sessions cid (some sess1) }
  if buffer_full then
    let audio_segment := buf1.get_buffer
    let features := extract_basic_features oracle audio_segment
    let upd := update_patient_model svc2.risk_assessment cid features outcome
    let ra1 := upd.1
    let risk_score := upd.2.1
    let status := upd.2.2
    let sess2 := { sess1 with last_risk := risk_score }
    let svc3 := { svc2 with
      risk_assessment := ra1,
      audio_buffers := setKey svc2.audio_buffers cid (some buf1.clear),
      active_sessions := setKey svc2.active_sessions cid (some sess2) }
    (svc3, some { type := "risk", risk := risk_score, status := status,
                  n := (ra1.feature_history cid).length,
                  chainRunId := cid,
                  timestamp := msg.timestamp.getD now })
  else (svc2, none)

/-- The `BiomarkerService.process_audio_message` (lines 288–364): the
validation chain — type must be `"audio"`, `chainRunId` must be
present and truthy, the audio payload must be present and truthy,
base64 decoding (`b64`, an external pure function; `none` models a
raised `binascii.Error`) must succeed, and the μ-law decode must be
non-empty — then `sessionStep`.  Every early `return None` leaves the
service untouched. -/
def process_audio_message (b64 : String → Option (List Nat))
    (oracle : List ℚ → Option (List (String × ℚ))) (outcome : ModelOutcome)
    (now : ℚ) (svc : BiomarkerService) (msg : AudioMessage) :
    BiomarkerService × Option RiskRecord :=
  if msg.type ≠ some "audio" then (svc, none)
  else
    match msg.chainRunId with
    | none => (svc, none)
    | some cid =>
      if cid = "" then (svc, none)
      else
        let audio_b64 := msg.audio.getD ""
        if audio_b64 = "" then (svc, none)
        else
          match b64 audio_b64 with
          | none => (svc, none)
          | some audio_bytes =>
            let audio_data := decode_mulaw audio_bytes
            if audio_data.length = 0 then (svc, none)
            else sessionStep oracle outcome now svc msg cid audio_data

/-- The `finally` block of `BiomarkerService.handle_client`
(lines 392–395): it logs `"Cleaning up session data"` and performs no
state change — no entry of `audio_buffers`, `active_sessions`,
`feature_history`, `scalers` or `models` is deleted. -/
def handle_client_cleanup (svc : BiomarkerService) : BiomarkerService :=
  svc

/-! ## Drivers used to state the buffering properties -/

/-- Feed a list of batches through `add_frame`, collecting each
call's boolean result in order. -/
def addFrames (b : AudioBuffer) (batches : List (List ℚ)) :
    AudioBuffer × List Bool :=
  match batches with
  | [] => (b, [])
  | d :: rest =>
    let step := b.add_frame d
    let next := addFrames step.1 rest
    (next.1, step.2 :: next.2)

/-- The boolean answers `add_frame` gives along a run, computed from
cumulative sample counts alone. -/
def readyFlags (len : Nat) (batches : List (List ℚ)) : List Bool :=
  match batches with
  | [] => []
  | d :: rest =>
    decide (24000 ≤ len + d.length) :: readyFlags (len + d.length) rest

/-- The service's per-window regime, one sample at a time: add the
sample and, when the buffer reports full, clear it (as
`process_audio_message` does after emitting a window) and count the
fire. -/
def countFires (b : AudioBuffer) (samples : List ℚ) : AudioBuffer × Nat :=
  match samples with
  | [] => (b, 0)
  | s :: rest =>
    let step := b.add_frame [s]
    if step.2 then
      let next := countFires step.1.clear rest
      (next.1, next.2 + 1)
    else
      let next := countFires step.1 rest
      (next.1, next.2)

/-! ## Concrete states and oracles used by witnesses -/

/-- A service state mid-call: session `"s1"` has a buffer, a session
record, ten history rows, a fitted scaler and a fitted model. -/
def exampleService : BiomarkerService :=
  { host := "127.0.0.1", port := 9091,
    risk_assessment :=
      { models := setKey (fun _ => false) "s1" true,
        scalers := setKey (fun _ => false) "s1" true,
        feature_history := setKey (fun _ => []) "s1" (List.replicate 10 [0]) },
    audio_buffers := setKey (fun _ => none) "s1" (some AudioBuffer.init),
    active_sessions := setKey (fun _ => none) "s1"
      (some { start_time := 0, frame_count := 24000, last_risk := 0 }) }

/-- Concrete external decoder for witnesses: every payload decodes to
the single byte `0`. -/
def b64ZeroByte : String → Option (List Nat) := fun _ => some [0]

/-- Concrete feature backend for witnesses: always faults, so the
zero-feature fallback is used. -/
def oracleNone : List ℚ → Option (List (String × ℚ)) := fun _ => none

/-- A fresh service, as `main` would build it. -/
def svc0 : BiomarkerService := BiomarkerService.init "127.0.0.1" 9091

/-- A non-audio message. -/
def msgPing : AudioMessage :=
  { type := some "ping", chainRunId := none, audio := none, timestamp := none }

/-- A well-formed audio message for session `"A"`. -/
def msgAudioA : AudioMessage :=
  { type := some "audio", chainRunId := some "A", audio := some "x",
    timestamp := none }

/-- A buffer one sample short of a full window. -/
def bufAlmost : AudioBuffer :=
  { sample_rate := 8000, buffer_size := 24000,
    buffer := List.replicate 23999 1, frame_count := 23999 }

/-- A service whose session `"A"` is one sample short of a window. -/
def svcAlmost : BiomarkerService :=
  { host := "127.0.0.1", port := 9091, risk_assessment := RiskAssessment.init,
    audio_buffers := setKey (fun _ => none) "A" (some bufAlmost),
    active_sessions := setKey (fun _ => none) "A"
      (some { start_time := 0, frame_count := 23999, last_risk := 0 }) }

/-! ## Basic lemmas -/

theorem setKey_self {α : Type} (f : String → α) (k : String) (v : α) :
    setKey f k v k = v := by
  simp [setKey]

theorem setKey_ne {α : Type} (f : String → α) (k x : String) (v : α)
    (h : x ≠ k) : setKey f k v x = f x := by
  simp [setKey, h]

theorem takeLast_length {α : Type} (l : List α) (n : Nat) :
    (takeLast l n).length = min l.length n := by
  simp [takeLast]
  omega

theorem historyAppend_eq_drop (hist : List (List ℚ)) (v : List ℚ) :
    historyAppend hist v = (hist ++ [v]).drop ((hist.length + 1) - max_history) := by
  unfold historyAppend
  by_cases h : (hist ++ [v]).length > max_history
  · simp only [if_pos h]
    simp
  · simp only [if_neg h]
    simp only [List.length_append, List.length_singleton] at h
    have : hist.length + 1 - max_history = 0 := by omega
    simp [this]

theorem historyAppend_length (hist : List (List ℚ)) (v : List ℚ) :
    (historyAppend hist v).length = min (hist.length + 1) max_history := by
  rw [historyAppend_eq_drop]
  simp
  omega

theorem update_patient_model_history (ra : RiskAssessment) (pid : String)
    (features : List (String × ℚ)) (outcome : ModelOutcome) :
    (update_patient_model ra pid features outcome).1.feature_history pid
      = historyAppend (ra.feature_history pid) (features.map Prod.snd) := by
  unfold update_patient_model
  cases outcome <;> dsimp only <;> split <;> simp [setKey_self]

theorem update_patient_model_frame (ra : RiskAssessment) (pid : String)
    (features : List (String × ℚ)) (outcome : ModelOutcome) (k : String)
    (hk : k ≠ pid) :
    (update_patient_model ra pid features outcome).1.feature_history k
        = ra.feature_history k ∧
    (update_patient_model ra pid features outcome).1.scalers k = ra.scalers k ∧
    (update_patient_model ra pid features outcome).1.models k = ra.models k := by
  unfold update_patient_model
  cases outcome <;> dsimp only <;> split <;> simp [setKey_ne _ _ _ _ hk]

theorem update_patient_model_warming (ra : RiskAssessment) (pid : String)
    (features : List (String × ℚ)) (outcome : ModelOutcome)
    (h : (historyAppend (ra.feature_history pid) (features.map Prod.snd)).length
          < min_samples) :
    (update_patient_model ra pid features outcome).2 = (0, "warming_up") := by
  unfold update_patient_model
  cases outcome <;> simp [if_pos h]

theorem update_patient_model_ok (ra : RiskAssessment) (pid : String)
    (features : List (String × ℚ)) (raw : ℚ)
    (h : min_samples ≤
      (historyAppend (ra.feature_history pid) (features.map Prod.snd)).length) :
    (update_patient_model ra pid features (.ok raw)).2 = (riskFromScore raw, "ok") := by
  unfold update_patient_model
  simp [if_neg (not_lt.mpr h)]

theorem update_patient_model_error (ra : RiskAssessment) (pid : String)
    (features : List (String × ℚ)) (outcome : ModelOutcome)
    (h : min_samples ≤
      (historyAppend (ra.feature_history pid) (features.map Prod.snd)).length)
    (hfault : outcome = .arrayFault ∨ outcome = .scaleFault ∨ outcome = .modelFault) :
    (update_patient_model ra pid features outcome).2 = (0, "error") := by
  unfold update_patient_model
  rcases hfault with h' | h' | h' <;> subst h' <;> simp [if_neg (not_lt.mpr h)]

/-! ## C3: the three-state risk machine -/

/-- C3: `update_patient_model` realises the three-state machine: with
the appended history shorter than `min_samples = 10` the result is
`(0.0, "warming_up")` for every outcome; from length 10 on, a
successful sklearn call gives status `"ok"` and a faulting one gives
`(0.0, "error")`; and the error state is non-sticky — a call made
right after a faulted one returns `"ok"` when its own sklearn call
succeeds. -/
theorem update_patient_model_state_machine (ra : RiskAssessment)
    (pid : String) (features g : List (String × ℚ))
    (outcome : ModelOutcome) (raw : ℚ)
    (hist : List (List ℚ))
    (hh : hist = historyAppend (ra.feature_history pid) (features.map Prod.snd)) :
    (hist.length < min_samples →
      (update_patient_model ra pid features outcome).2 = (0, "warming_up")) ∧
    (min_samples ≤ hist.length →
      (update_patient_model ra pid features (.ok raw)).2 = (riskFromScore raw, "ok")) ∧
    (min_samples ≤ hist.length →
      outcome = .arrayFault ∨ outcome = .scaleFault ∨ outcome = .modelFault →
      (update_patient_model ra pid features outcome).2 = (0, "error")) ∧
    (min_samples ≤ hist.length →
      (update_patient_model
          (update_patient_model ra pid features .modelFault).1 pid g (.ok raw)).2
        = (riskFromScore raw, "ok")) := by
  subst hh
  refine ⟨update_patient_model_warming ra pid features outcome,
          fun hge => update_patient_model_ok ra pid features raw hge,
          fun hge => update_patient_model_error ra pid features outcome hge,
          fun hge => ?_⟩
  have hlen2 : min_samples ≤
      (historyAppend
        ((update_patient_model ra pid features .modelFault).1.feature_history pid)
        (g.map Prod.snd)).length := by
    rw [update_patient_model_history, historyAppend_length]
    simp only [min_samples, max_history] at hge ⊢
    omega
  exact update_patient_model_ok _ pid g raw hlen2

/-- Witness for C3 at a patient with nine prior windows: the tenth
window reaches `"ok"`, and a faulted tenth window reaches `"error"`
but the eleventh is back to `"ok"`. -/
theorem update_patient_model_state_machine_witness :
    (min_samples ≤
      (historyAppend
        (({ models := fun _ => false, scalers := fun _ => false,
            feature_history := fun _ => List.replicate 9 [0] } :
              RiskAssessment).feature_history "p")
        ([(("f0_mean" : String), (0 : ℚ))].map Prod.snd)).length) ∧
    (update_patient_model
        { models := fun _ => false, scalers := fun _ => false,
          feature_history := fun _ => List.replicate 9 [0] } "p"
        [("f0_mean", 0)] (.ok 1)).2 = (riskFromScore 1, "ok") ∧
    (update_patient_model
        (update_patient_model
          { models := fun _ => false, scalers := fun _ => false,
            feature_history := fun _ => List.replicate 9 [0] } "p"
          [("f0_mean", 0)] .modelFault).1 "p"
        [("f0_mean", 0)] (.ok 1)).2 = (riskFromScore 1, "ok") := by
  have hlen : min_samples ≤
      (historyAppend
        (({ models := fun _ => false, scalers := fun _ => false,
            feature_history := fun _ => List.replicate 9 [0] } :
              RiskAssessment).feature_history "p")
        ([(("f0_mean" : String), (0 : ℚ))].map Prod.snd)).length := by
    rw [historyAppend_length]
    simp [min_samples, max_history]
  have h := update_patient_model_state_machine
    { models := fun _ => false, scalers := fun _ => false,
      feature_history := fun _ => List.replicate 9 [0] } "p"
    [("f0_mean", 0)] [("f0_mean", 0)] .modelFault 1 _ rfl
  exact ⟨hlen, h.2.1 hlen, h.2.2.2 hlen⟩

/-! ## C4: the affine clamp -/

/-- C4: in the `"ok"` state the emitted risk is exactly
`clamp((0.5 - raw)/1.0, 0.0, 1.0)`; the clamp sends `0.5 ↦ 0`,
`-0.5 ↦ 1`, `1.5 ↦ 0` and always lands in `[0, 1]`. -/
theorem risk_score_affine_clamp (ra : RiskAssessment) (pid : String)
    (features : List (String × ℚ)) (raw : ℚ)
    (h : min_samples ≤
      (historyAppend (ra.feature_history pid) (features.map Prod.snd)).length) :
    (update_patient_model ra pid features (.ok raw)).2
        = (riskFromScore raw, "ok") ∧
    riskFromScore raw = max 0 (min 1 ((1 / 2 - raw) / 1)) ∧
    riskFromScore (1 / 2) = 0 ∧
    riskFromScore (-(1 / 2)) = 1 ∧
    riskFromScore (3 / 2) = 0 ∧
    (∀ s : ℚ, 0 ≤ riskFromScore s ∧ riskFromScore s ≤ 1) := by
  refine ⟨?_, rfl, ?_, ?_, ?_, ?_⟩
  · unfold update_patient_model
    simp [if_neg (not_lt.mpr h)]
  · unfold riskFromScore
    norm_num
  · unfold riskFromScore
    norm_num
  · unfold riskFromScore
    norm_num
  · intro s
    unfold riskFromScore
    constructor
    · exact le_max_left 0 _
    · exact max_le (by norm_num) (min_le_left 1 _)

/-- Witness for C4 with ten windows of history and raw score 1/2. -/
theorem risk_score_affine_clamp_witness :
    (min_samples ≤
      (historyAppend
        (({ models := fun _ => false, scalers := fun _ => false,
            feature_history := fun _ => List.replicate 9 [0] } :
              RiskAssessment).feature_history "p")
        ([(("f0_mean" : String), (0 : ℚ))].map Prod.snd)).length) ∧
    (update_patient_model
        { models := fun _ => false, scalers := fun _ => false,
          feature_history := fun _ => List.replicate 9 [0] } "p"
        [("f0_mean", 0)] (.ok (1 / 2))).2 = (riskFromScore (1 / 2), "ok") ∧
    riskFromScore (1 / 2) = 0 := by
  have hlen : min_samples ≤
      (historyAppend
        (({ models := fun _ => false, scalers := fun _ => false,
            feature_history := fun _ => List.replicate 9 [0] } :
              RiskAssessment).feature_history "p")
        ([(("f0_mean" : String), (0 : ℚ))].map Prod.snd)).length := by
    rw [historyAppend_length]
    simp [min_samples, max_history]
  have h := risk_score_affine_clamp
    { models := fun _ => false, scalers := fun _ => false,
      feature_history := fun _ => List.replicate 9 [0] } "p"
    [("f0_mean", 0)] (1 / 2) hlen
  exact ⟨hlen, h.1, h.2.2.1⟩

/-! ## C5: bounded FIFO history -/

theorem foldl_historyAppend (vs : List (List ℚ)) :
    ∀ h : List (List ℚ), h.length ≤ max_history →
      List.foldl historyAppend h vs
        = (h ++ vs).drop (h.length + vs.length - max_history) := by
  induction vs with
  | nil =>
    intro h hh
    have h0 : h.length - max_history = 0 := by omega
    simp [h0]
  | cons v vs ih =>
    intro h hh
    have hlen : (historyAppend h v).length = min (h.length + 1) max_history :=
      historyAppend_length h v
    have hle : (historyAppend h v).length ≤ max_history := by omega
    have := ih (historyAppend h v) hle
    rw [List.foldl_cons, this, hlen, historyAppend_eq_drop]
    by_cases hcase : h.length + 1 ≤ max_history
    · have hk : h.length + 1 - max_history = 0 := by omega
      rw [hk, List.drop_zero]
      have : min (h.length + 1) max_history = h.length + 1 := by omega
      rw [this, List.append_assoc]
      congr 1
      simp only [List.length_cons, List.singleton_append]
      omega
    · have hfull : h.length = max_history := by omega
      have hmin : min (h.length + 1) max_history = max_history := by omega
      rw [hmin]
      have h1le : h.length + 1 - max_history ≤ (h ++ [v]).length := by
        simp only [List.length_append, List.length_singleton]
        omega
      rw [← List.drop_append_of_le_length h1le, List.drop_drop]
      rw [List.append_assoc]
      congr 1
      simp only [List.length_cons, List.singleton_append]
      omega

/-- C5: the per-session history is a strict FIFO bounded at
`max_history = 100`: after any `update_patient_model` call the
history length is at most 100, and folding `max_history + 1` vectors
into an empty history through the append-and-trim step keeps exactly
the last 100 in their original relative order. -/
theorem feature_history_fifo_bounded (ra : RiskAssessment) (pid : String)
    (features : List (String × ℚ)) (outcome : ModelOutcome)
    (vs : List (List ℚ)) (hvs : vs.length = max_history + 1) :
    ((update_patient_model ra pid features outcome).1.feature_history pid).length
        ≤ max_history ∧
    List.foldl historyAppend [] vs = vs.drop 1 ∧
    (List.foldl historyAppend [] vs).length = max_history := by
  have h2 : List.foldl historyAppend [] vs = vs.drop 1 := by
    rw [foldl_historyAppend vs [] (by simp)]
    have h1 : ([] : List (List ℚ)).length + vs.length - max_history = 1 := by
      simp only [List.length_nil, hvs]
      omega
    rw [h1, List.nil_append]
  refine ⟨?_, h2, ?_⟩
  · rw [update_patient_model_history, historyAppend_length]
    omega
  · rw [h2]
    simp [hvs]

/-- Witness for C5 on 101 one-entry vectors. -/
theorem feature_history_fifo_bounded_witness :
    ((List.replicate (max_history + 1) ([0] : List ℚ)).length = max_history + 1) ∧
    List.foldl historyAppend [] (List.replicate (max_history + 1) ([0] : List ℚ))
      = (List.replicate (max_history + 1) ([0] : List ℚ)).drop 1 ∧
    (List.foldl historyAppend []
        (List.replicate (max_history + 1) ([0] : List ℚ))).length = max_history := by
  have hlen : (List.replicate (max_history + 1) ([0] : List ℚ)).length
      = max_history + 1 := by simp
  have h := feature_history_fifo_bounded RiskAssessment.init "p" [] .arrayFault
    (List.replicate (max_history + 1) ([0] : List ℚ)) hlen
  exact ⟨hlen, h.2.1, h.2.2⟩

/-! ## C6: μ-law decoding -/

theorem mulawMagnitude_le : ∀ b < 256, mulawMagnitude b ≤ 10368 := by decide

theorem xor_byte_lt : ∀ b < 256, b ^^^ 0xFF < 256 := by decide

theorem mulawDecodeByte_eq (byte : Nat) :
    mulawDecodeByte byte
      = (((if (byte ^^^ 0xFF) &&& 0x80 ≠ 0
            then -(mulawMagnitude (byte ^^^ 0xFF) : ℤ)
            else (mulawMagnitude (byte ^^^ 0xFF) : ℤ)) : ℤ) : ℚ) / 32768 := rfl

theorem mulawDecodeByte_bound (byte : Nat) (h : byte < 256) :
    -1 ≤ mulawDecodeByte byte ∧ mulawDecodeByte byte ≤ 1 := by
  have hm : mulawMagnitude (byte ^^^ 0xFF) ≤ 10368 :=
    mulawMagnitude_le _ (xor_byte_lt byte h)
  have hmq : (mulawMagnitude (byte ^^^ 0xFF) : ℚ) ≤ 10368 := by exact_mod_cast hm
  have hm0 : (0 : ℚ) ≤ (mulawMagnitude (byte ^^^ 0xFF) : ℚ) := by positivity
  rw [mulawDecodeByte_eq]
  by_cases hs : (byte ^^^ 0xFF) &&& 0x80 ≠ 0
  · rw [if_pos hs]
    push_cast
    constructor
    · rw [le_div_iff₀ (by norm_num : (0 : ℚ) < 32768)]
      linarith
    · rw [div_le_one (by norm_num : (0 : ℚ) < 32768)]
      linarith
  · rw [if_neg hs]
    push_cast
    constructor
    · rw [le_div_iff₀ (by norm_num : (0 : ℚ) < 32768)]
      linarith
    · rw [div_le_one (by norm_num : (0 : ℚ) < 32768)]
      linarith

/-- C6: `decode_mulaw` is pure and length-preserving — one sample per
byte; the empty input gives the empty output; the `i`-th sample is the
μ-law decoding of the `i`-th byte (so order is preserved and each
sample is computed by the stated invert/sign/exponent/mantissa/bias
algorithm embodied in `mulawDecodeByte`); and every sample of a byte
string lies in `[-1, 1]`. -/
theorem decode_mulaw_pure_length_preserving (bs : List Nat) :
    (decode_mulaw bs).length = bs.length ∧
    decode_mulaw [] = [] ∧
    (∀ i, (decode_mulaw bs).get? i = (bs.get? i).map mulawDecodeByte) ∧
    ((∀ b ∈ bs, b < 256) → ∀ x ∈ decode_mulaw bs, -1 ≤ x ∧ x ≤ 1) := by
  refine ⟨by simp [decode_mulaw], rfl, ?_, ?_⟩
  · intro i
    simp [decode_mulaw]
  · intro hb x hx
    rcases List.mem_map.mp (by simpa [decode_mulaw] using hx) with ⟨b, hbmem, rfl⟩
    exact mulawDecodeByte_bound b (hb b hbmem)

/-- Witness for C6 on the bytes `[0x00, 0x7F, 0xFF]`. -/
theorem decode_mulaw_pure_length_preserving_witness :
    (∀ b ∈ [0x00, 0x7F, 0xFF], b < 256) ∧
    (∀ x ∈ decode_mulaw [0x00, 0x7F, 0xFF], -1 ≤ x ∧ x ≤ 1) ∧
    (decode_mulaw [0x00, 0x7F, 0xFF]).length = 3 := by
  have h := decode_mulaw_pure_length_preserving [0x00, 0x7F, 0xFF]
  exact ⟨by decide, h.2.2.2 (by decide), h.1.trans rfl⟩

/-! ## C9: the buffering state machine -/

theorem add_frame_buffer_size (b : AudioBuffer) (d : List ℚ) :
    (b.add_frame d).1.buffer_size = b.buffer_size := rfl

theorem clear_buffer_size (b : AudioBuffer) :
    b.clear.buffer_size = b.buffer_size := rfl

theorem add_frame_length (b : AudioBuffer) (d : List ℚ) :
    (b.add_frame d).1.buffer.length
        = min (b.buffer.length + d.length) b.buffer_size ∧
    (b.add_frame d).2 = decide (b.buffer_size ≤ b.buffer.length + d.length) := by
  constructor
  · show (takeLast (b.buffer ++ d) b.buffer_size).length = _
    rw [takeLast_length, List.length_append]
  · show decide (b.buffer_size ≤ (takeLast (b.buffer ++ d) b.buffer_size).length) = _
    rw [takeLast_length, List.length_append, decide_eq_decide]
    omega

theorem readyFlags_congr (batches : List (List ℚ)) :
    ∀ a b : Nat, (a = b ∨ (24000 ≤ a ∧ 24000 ≤ b)) →
      readyFlags a batches = readyFlags b batches := by
  induction batches with
  | nil => intro a b _; rfl
  | cons d rest ih =>
    intro a b hab
    rcases hab with rfl | ⟨ha, hb⟩
    · rfl
    · unfold readyFlags
      have h1 : decide (24000 ≤ a + d.length) = decide (24000 ≤ b + d.length) := by
        rw [decide_eq_decide]
        omega
      rw [h1, ih (a + d.length) (b + d.length) (Or.inr ⟨by omega, by omega⟩)]

theorem addFrames_flags (batches : List (List ℚ)) :
    ∀ b : AudioBuffer, b.buffer_size = 24000 → b.buffer.length ≤ 24000 →
      (addFrames b batches).2 = readyFlags b.buffer.length batches := by
  induction batches with
  | nil => intro b _ _; rfl
  | cons d rest ih =>
    intro b hsize hlen
    have hstep := add_frame_length b d
    have hflag : (b.add_frame d).2 = decide (24000 ≤ b.buffer.length + d.length) := by
      rw [hstep.2, hsize]
    have hlen1 : (b.add_frame d).1.buffer.length
        = min (b.buffer.length + d.length) 24000 := by
      rw [hstep.1, hsize]
    have hsize1 : (b.add_frame d).1.buffer_size = 24000 := by
      rw [add_frame_buffer_size, hsize]
    have hrec := ih (b.add_frame d).1 hsize1 (by rw [hlen1]; omega)
    unfold addFrames readyFlags
    dsimp only
    rw [hflag, hrec, hlen1]
    congr 1
    exact readyFlags_congr rest _ _ (by omega)

theorem readyFlags_get (batches : List (List ℚ)) :
    ∀ len k : Nat, k < batches.length →
      (readyFlags len batches).get? k
        = some (decide (24000 ≤ len + ((batches.take (k + 1)).map List.length).sum)) := by
  induction batches with
  | nil => intro len k hk; simp at hk
  | cons d rest ih =>
    intro len k hk
    cases k with
    | zero =>
      simp [readyFlags]
    | succ k =>
      have hrec := ih (len + d.length) k (by simpa using hk)
      unfold readyFlags
      rw [List.get?_cons_succ, hrec]
      congr 1
      rw [decide_eq_decide]
      simp only [List.take_succ_cons, List.map_cons, List.sum_cons]
      omega

theorem countFires_spec (samples : List ℚ) :
    ∀ b : AudioBuffer, b.buffer_size = 24000 → b.buffer.length < 24000 →
      (countFires b samples).2 = (b.buffer.length + samples.length) / 24000 ∧
      (countFires b samples).1.buffer.length
        = (b.buffer.length + samples.length) % 24000 := by
  induction samples with
  | nil =>
    intro b hsize hlen
    refine ⟨?_, ?_⟩ <;> simp [countFires] <;> omega
  | cons s rest ih =>
    intro b hsize hlen
    have hstep := add_frame_length b [s]
    have hlen1 : (b.add_frame [s]).1.buffer.length = b.buffer.length + 1 := by
      rw [hstep.1, hsize]
      simp only [List.length_singleton]
      omega
    have hflag : (b.add_frame [s]).2 = decide (24000 ≤ b.buffer.length + 1) := by
      rw [hstep.2, hsize]
      simp only [List.length_singleton]
    have hsize1 : (b.add_frame [s]).1.buffer_size = 24000 := by
      rw [add_frame_buffer_size, hsize]
    unfold countFires
    dsimp only
    rw [hflag]
    by_cases hfull : 24000 ≤ b.buffer.length + 1
    · rw [if_pos (by simp [hfull])]
      have hzero : (b.add_frame [s]).1.clear.buffer.length = 0 := rfl
      have hrec := ih (b.add_frame [s]).1.clear
        (by rw [clear_buffer_size, hsize1]) (by rw [hzero]; omega)
      rw [hzero] at hrec
      refine ⟨?_, ?_⟩
      · dsimp only
        rw [hrec.1]
        simp only [List.length_cons]
        omega
      · dsimp only
        rw [hrec.2]
        simp only [List.length_cons]
        omega
    · rw [if_neg (by simp [hfull])]
      have hrec := ih (b.add_frame [s]).1 hsize1 (by omega)
      rw [hlen1] at hrec
      refine ⟨?_, ?_⟩
      · dsimp only
        rw [hrec.1]
        simp only [List.length_cons]
        omega
      · dsimp only
        rw [hrec.2]
        simp only [List.length_cons]
        omega

/-- C9: buffering is batch-insensitive and never fires early.  Feeding
batches into a fresh `AudioBuffer`, the `k`-th `add_frame` call
returns `true` exactly when the cumulative sample count after it is at
least `C = 24000` — so the first `true` appears at the same cumulative
count under any partition, and `add_frame` returns `false` whenever
the cumulative count is below `C`.  In the service's regime (clear
after each full window, one sample per call) the window fires exactly
once every 24000 samples: the fire count is `⌊N / 24000⌋` and the
leftover buffer holds `N % 24000` samples. -/
theorem audio_buffer_batch_insensitive (batches : List (List ℚ)) (k : Nat)
    (hk : k < batches.length) (samples : List ℚ) :
    (addFrames AudioBuffer.init batches).2.get? k
      = some (decide (24000 ≤ ((batches.take (k + 1)).map List.length).sum)) ∧
    (((batches.take (k + 1)).map List.length).sum < 24000 →
      (addFrames AudioBuffer.init batches).2.get? k = some false) ∧
    (countFires AudioBuffer.init samples).2 = samples.length / 24000 ∧
    (countFires AudioBuffer.init samples).1.buffer.length
      = samples.length % 24000 := by
  have hflags : (addFrames AudioBuffer.init batches).2 = readyFlags 0 batches :=
    addFrames_flags batches AudioBuffer.init rfl (by simp [AudioBuffer.init])
  have hget := readyFlags_get batches 0 k hk
  have h1 : (addFrames AudioBuffer.init batches).2.get? k
      = some (decide (24000 ≤ ((batches.take (k + 1)).map List.length).sum)) := by
    rw [hflags, hget]
    congr 1
    rw [decide_eq_decide]
    omega
  have hcf := countFires_spec samples AudioBuffer.init rfl (by simp [AudioBuffer.init])
  refine ⟨h1, ?_, by simpa [AudioBuffer.init] using hcf.1,
          by simpa [AudioBuffer.init] using hcf.2⟩
  intro hlt
  rw [h1, decide_eq_false (by omega)]

/-- Witness for C9: a two-batch run and a three-sample run. -/
theorem audio_buffer_batch_insensitive_witness :
    ((0 : Nat) < ([[(1 : ℚ)], [2, 3]] : List (List ℚ)).length) ∧
    (addFrames AudioBuffer.init [[(1 : ℚ)], [2, 3]]).2.get? 0
      = some (decide (24000 ≤
          ((([[(1 : ℚ)], [2, 3]] : List (List ℚ)).take 1).map List.length).sum)) ∧
    (countFires AudioBuffer.init ([1, 2, 3] : List ℚ)).2
      = ([1, 2, 3] : List ℚ).length / 24000 := by
  have h := audio_buffer_batch_insensitive [[(1 : ℚ)], [2, 3]] 0
    (by norm_num) ([1, 2, 3] : List ℚ)
  exact ⟨by norm_num, h.1, h.2.2.1⟩

/-! ## C1: feature-vector dimensionality and ordering -/

/-- C1 counterexample: the success path of `extract_basic_features`
and `_get_zero_features` do NOT present their keys in the same order.
At position 8 the success path has `mfcc_0_mean` (the MFCC block comes
before the energy block) while the zero dictionary has `rms_mean`
(its literal lists the energy entries before the MFCC loop runs). -/
theorem zero_features_key_order_differs :
    zeroFeatures.map Prod.fst ≠ extractFeatureKeys ∧
    (zeroFeatures.map Prod.fst).get? 8 = some "rms_mean" ∧
    extractFeatureKeys.get? 8 = some "mfcc_0_mean" := by
  refine ⟨by decide, by decide, by decide⟩

/-- C1 amended: both vectors have dimensionality 38 and the same key
set (the two key sequences are permutations of each other), but not
the same order; because every value of the fallback dictionary is
0.0, `list(features.values())` of the fallback is 38 zeros under
either ordering, so the position-sensitive history rows carry the
same numbers regardless. -/
theorem zero_and_extract_features_same_dimension :
    zeroFeatures.length = 38 ∧
    extractFeatureKeys.length = 38 ∧
    (zeroFeatures.map Prod.fst).Perm extractFeatureKeys ∧
    zeroFeatures.map Prod.snd = List.replicate 38 (0 : ℚ) := by
  refine ⟨by decide, by decide, by decide, rfl⟩

/-! ## C2: session cleanup on connection close -/

/-- C2 (code bug): the `finally` block of `handle_client` only logs
`"Cleaning up session data"`; it is the identity on the service
state, so after the connection closes every per-session entry —
buffer, session record, feature history, scaler, model — is still
present.  Nothing is released or marked inactive. -/
theorem handle_client_cleanup_retains_state :
    (∀ svc : BiomarkerService, handle_client_cleanup svc = svc) ∧
    (handle_client_cleanup exampleService).audio_buffers "s1"
        = some AudioBuffer.init ∧
    (handle_client_cleanup exampleService).active_sessions "s1" ≠ none ∧
    (handle_client_cleanup exampleService).risk_assessment.feature_history "s1"
        = List.replicate 10 [0] ∧
    (handle_client_cleanup exampleService).risk_assessment.scalers "s1" = true ∧
    (handle_client_cleanup exampleService).risk_assessment.models "s1" = true := by
  refine ⟨fun _ => rfl, ?_, ?_, ?_, ?_, ?_⟩ <;>
    simp [handle_client_cleanup, exampleService, setKey]

/-! ## Lemmas about the session step and the message pipeline -/

theorem update_frame_history (ra : RiskAssessment) (pid : String)
    (features : List (String × ℚ)) (outcome : ModelOutcome) (k : String)
    (hk : k ≠ pid) :
    (update_patient_model ra pid features outcome).1.feature_history k
      = ra.feature_history k :=
  (update_patient_model_frame ra pid features outcome k hk).1

theorem update_frame_scalers (ra : RiskAssessment) (pid : String)
    (features : List (String × ℚ)) (outcome : ModelOutcome) (k : String)
    (hk : k ≠ pid) :
    (update_patient_model ra pid features outcome).1.scalers k = ra.scalers k :=
  (update_patient_model_frame ra pid features outcome k hk).2.1

theorem update_frame_models (ra : RiskAssessment) (pid : String)
    (features : List (String × ℚ)) (outcome : ModelOutcome) (k : String)
    (hk : k ≠ pid) :
    (update_patient_model ra pid features outcome).1.models k = ra.models k :=
  (update_patient_model_frame ra pid features outcome k hk).2.2

theorem ensureSession_risk (now : ℚ) (svc : BiomarkerService) (cid : String) :
    (ensureSession now svc cid).risk_assessment = svc.risk_assessment := by
  unfold ensureSession
  split <;> rfl

theorem ensureSession_buf (now : ℚ) (svc : BiomarkerService) (cid : String) :
    (ensureSession now svc cid).audio_buffers cid
      = some ((svc.audio_buffers cid).getD AudioBuffer.init) := by
  unfold ensureSession
  by_cases h : (svc.audio_buffers cid).isNone = true
  · have hnone : svc.audio_buffers cid = none := Option.isNone_iff_eq_none.mp h
    rw [if_pos h]
    simp [setKey_self, hnone]
  · rw [if_neg h]
    cases hx : svc.audio_buffers cid with
    | none => rw [hx] at h; simp at h
    | some b => simp [hx]

theorem ensureSession_frame (now : ℚ) (svc : BiomarkerService) (cid k : String)
    (hk : k ≠ cid) :
    (ensureSession now svc cid).audio_buffers k = svc.audio_buffers k ∧
    (ensureSession now svc cid).active_sessions k = svc.active_sessions k := by
  unfold ensureSession
  split
  · exact ⟨setKey_ne _ _ _ _ hk, setKey_ne _ _ _ _ hk⟩
  · exact ⟨rfl, rfl⟩

theorem sessionStep_belowCapacity (oracle : List ℚ → Option (List (String × ℚ)))
    (outcome : ModelOutcome) (now : ℚ) (svc : BiomarkerService)
    (msg : AudioMessage) (cid : String) (data : List ℚ)
    (hfull : (((svc.audio_buffers cid).getD AudioBuffer.init).add_frame data).2
        = false) :
    (sessionStep oracle outcome now svc msg cid data).2 = none ∧
    (sessionStep oracle outcome now svc msg cid data).1.risk_assessment
        = svc.risk_assessment ∧
    (sessionStep oracle outcome now svc msg cid data).1.audio_buffers cid
        = some (((svc.audio_buffers cid).getD AudioBuffer.init).add_frame data).1 ∧
    (∀ k, k ≠ cid →
      (sessionStep oracle outcome now svc msg cid data).1.audio_buffers k
          = svc.audio_buffers k ∧
      (sessionStep oracle outcome now svc msg cid data).1.active_sessions k
          = svc.active_sessions k) := by
  refine ⟨?_, ?_, ?_, fun k hk => ?_⟩
  · simp [sessionStep, ensureSession_buf, hfull]
  · simp [sessionStep, ensureSession_buf, hfull, ensureSession_risk]
  · simp [sessionStep, ensureSession_buf, hfull, setKey_self]
  · obtain ⟨hf1, hf2⟩ := ensureSession_frame now svc cid k hk
    constructor
    · simp [sessionStep, ensureSession_buf, hfull, setKey, hk, hf1]
    · simp [sessionStep, ensureSession_buf, hfull, setKey, hk, hf2]

theorem sessionStep_full (oracle : List ℚ → Option (List (String × ℚ)))
    (outcome : ModelOutcome) (now : ℚ) (svc : BiomarkerService)
    (msg : AudioMessage) (cid : String) (data : List ℚ)
    (hfull : (((svc.audio_buffers cid).getD AudioBuffer.init).add_frame data).2
        = true) :
    ((sessionStep oracle outcome now svc msg cid data).2).isSome = true := by
  simp [sessionStep, ensureSession_buf, hfull]

theorem sessionStep_emits (oracle : List ℚ → Option (List (String × ℚ)))
    (outcome : ModelOutcome) (now : ℚ) (svc : BiomarkerService)
    (msg : AudioMessage) (cid : String) (data : List ℚ) :
    ∀ r, (sessionStep oracle outcome now svc msg cid data).2 = some r →
      r.chainRunId = cid ∧
      r.n = ((sessionStep oracle outcome now svc msg cid data).1.risk_assessment.feature_history
              cid).length ∧
      r.n = (historyAppend (svc.risk_assessment.feature_history cid)
              ((extract_basic_features oracle
                 (((svc.audio_buffers cid).getD AudioBuffer.init).add_frame data).1.get_buffer).map
                Prod.snd)).length := by
  intro r hr
  simp only [sessionStep, ensureSession_buf, Option.getD_some] at hr ⊢
  by_cases hfl : ((((svc.audio_buffers cid).getD AudioBuffer.init).add_frame data).2 = true)
  · rw [if_pos hfl] at hr ⊢
    dsimp only at hr ⊢
    rw [Option.some.injEq] at hr
    subst hr
    refine ⟨rfl, rfl, ?_⟩
    dsimp only
    rw [update_patient_model_history, ensureSession_risk]
  · rw [if_neg hfl] at hr
    dsimp only at hr
    exact absurd hr (by simp)

theorem sessionStep_frame (oracle : List ℚ → Option (List (String × ℚ)))
    (outcome : ModelOutcome) (now : ℚ) (svc : BiomarkerService)
    (msg : AudioMessage) (cid : String) (data : List ℚ) (k : String)
    (hk : k ≠ cid) :
    (sessionStep oracle outcome now svc msg cid data).1.audio_buffers k
        = svc.audio_buffers k ∧
    (sessionStep oracle outcome now svc msg cid data).1.active_sessions k
        = svc.active_sessions k ∧
    (sessionStep oracle outcome now svc msg cid data).1.risk_assessment.feature_history k
        = svc.risk_assessment.feature_history k ∧
    (sessionStep oracle outcome now svc msg cid data).1.risk_assessment.scalers k
        = svc.risk_assessment.scalers k ∧
    (sessionStep oracle outcome now svc msg cid data).1.risk_assessment.models k
        = svc.risk_assessment.models k := by
  obtain ⟨hf1, hf2⟩ := ensureSession_frame now svc cid k hk
  have hrisk := ensureSession_risk now svc cid
  by_cases hfl : ((((svc.audio_buffers cid).getD AudioBuffer.init).add_frame data).2 = true)
  · refine ⟨?_, ?_, ?_, ?_, ?_⟩
    · simp [sessionStep, ensureSession_buf, hfl, setKey, hk, hf1]
    · simp [sessionStep, ensureSession_buf, hfl, setKey, hk, hf2]
    · simp [sessionStep, ensureSession_buf, hfl, update_frame_history, hk, hrisk]
    · simp [sessionStep, ensureSession_buf, hfl, update_frame_scalers, hk, hrisk]
    · simp [sessionStep, ensureSession_buf, hfl, update_frame_models, hk, hrisk]
  · refine ⟨?_, ?_, ?_, ?_, ?_⟩
    · simp [sessionStep, ensureSession_buf, hfl, setKey, hk, hf1]
    · simp [sessionStep, ensureSession_buf, hfl, setKey, hk, hf2]
    · simp [sessionStep, ensureSession_buf, hfl, hrisk]
    · simp [sessionStep, ensureSession_buf, hfl, hrisk]
    · simp [sessionStep, ensureSession_buf, hfl, hrisk]

theorem process_run (b64 : String → Option (List Nat))
    (oracle : List ℚ → Option (List (String × ℚ))) (outcome : ModelOutcome)
    (now : ℚ) (svc : BiomarkerService) (msg : AudioMessage)
    (cid a : String) (bytes : List Nat)
    (h1 : msg.type = some "audio") (h2 : msg.chainRunId = some cid)
    (h3 : cid ≠ "") (h4 : msg.audio = some a) (h5 : a ≠ "")
    (h6 : b64 a = some bytes) (h7 : bytes ≠ []) :
    process_audio_message b64 oracle outcome now svc msg
      = sessionStep oracle outcome now svc msg cid (decode_mulaw bytes) := by
  have hlen : (decode_mulaw bytes).length ≠ 0 := by
    rw [decode_mulaw, List.length_map]
    exact fun h => h7 (List.length_eq_zero.mp h)
  simp [process_audio_message, h1, h2, h3, h4, h5, h6, hlen]

theorem process_drop (b64 : String → Option (List Nat))
    (oracle : List ℚ → Option (List (String × ℚ))) (outcome : ModelOutcome)
    (now : ℚ) (svc : BiomarkerService) (msg : AudioMessage)
    (h : msg.type ≠ some "audio" ∨ msg.chainRunId = none ∨
         msg.chainRunId = some "" ∨ msg.audio = none ∨ msg.audio = some "" ∨
         b64 (msg.audio.getD "") = none ∨ b64 (msg.audio.getD "") = some []) :
    process_audio_message b64 oracle outcome now svc msg = (svc, none) := by
  by_cases ht : msg.type ≠ some "audio"
  · simp only [process_audio_message]
    rw [if_pos ht]
  · cases hcid : msg.chainRunId with
    | none => simp [process_audio_message, ht, hcid]
    | some cid =>
      by_cases hc : cid = ""
      · simp [process_audio_message, ht, hcid, hc]
      · cases ha : msg.audio with
        | none => simp [process_audio_message, ht, hcid, hc, ha]
        | some a =>
          by_cases hae : a = ""
          · simp [process_audio_message, ht, hcid, hc, ha, hae]
          · rcases h with h | h | h | h | h | h | h
            · exact absurd h ht
            · rw [hcid] at h; cases h
            · rw [hcid] at h; rw [Option.some.injEq] at h; exact absurd h hc
            · rw [ha] at h; cases h
            · rw [ha] at h; rw [Option.some.injEq] at h; exact absurd h hae
            · rw [ha, Option.getD_some] at h
              simp [process_audio_message, ht, hcid, hc, ha, hae, h]
            · rw [ha, Option.getD_some] at h
              simp [process_audio_message, ht, hcid, hc, ha, hae, h, decode_mulaw]

theorem process_cases (b64 : String → Option (List Nat))
    (oracle : List ℚ → Option (List (String × ℚ))) (outcome : ModelOutcome)
    (now : ℚ) (svc : BiomarkerService) (msg : AudioMessage) :
    process_audio_message b64 oracle outcome now svc msg = (svc, none) ∨
    ∃ cid bytes, msg.chainRunId = some cid ∧
      process_audio_message b64 oracle outcome now svc msg
        = sessionStep oracle outcome now svc msg cid (decode_mulaw bytes) := by
  by_cases h1 : msg.type = some "audio"
  · cases hcid : msg.chainRunId with
    | none => exact Or.inl (process_drop _ _ _ _ _ _ (Or.inr (Or.inl hcid)))
    | some cid =>
      by_cases h3 : cid = ""
      · subst h3
        exact Or.inl (process_drop _ _ _ _ _ _ (Or.inr (Or.inr (Or.inl hcid))))
      · cases ha : msg.audio with
        | none =>
          exact Or.inl (process_drop _ _ _ _ _ _
            (Or.inr (Or.inr (Or.inr (Or.inl ha)))))
        | some a =>
          by_cases h5 : a = ""
          · subst h5
            exact Or.inl (process_drop _ _ _ _ _ _
              (Or.inr (Or.inr (Or.inr (Or.inr (Or.inl ha))))))
          · cases hb : b64 a with
            | none =>
              refine Or.inl (process_drop _ _ _ _ _ _
                (Or.inr (Or.inr (Or.inr (Or.inr (Or.inr (Or.inl ?_)))))))
              rw [ha, Option.getD_some, hb]
            | some bytes =>
              by_cases h7 : bytes = []
              · subst h7
                refine Or.inl (process_drop _ _ _ _ _ _
                  (Or.inr (Or.inr (Or.inr (Or.inr (Or.inr (Or.inr ?_)))))))
                rw [ha, Option.getD_some, hb]
              · exact Or.inr ⟨cid, bytes, rfl,
                  process_run b64 oracle outcome now svc msg cid a bytes
                    h1 hcid h3 ha h5 hb h7⟩
  · exact Or.inl (process_drop _ _ _ _ _ _ (Or.inl h1))

theorem historyAppend_getLast (hist : List (List ℚ)) (v : List ℚ) :
    (historyAppend hist v).getLast? = some v := by
  rw [historyAppend_eq_drop]
  have hk : hist.length + 1 - max_history ≤ hist.length := by
    simp only [max_history]
    omega
  rw [List.drop_append_of_le_length hk]
  exact List.getLast?_concat _

/-! ## C7: drop cases of `process_audio_message` -/

/-- C7: `process_audio_message` emits at most one record per message
(its result is an `Option`); it returns `None` with the service state
entirely untouched when the type is not `"audio"`, the session id is
missing or empty, the audio payload is missing or empty, the base64
decode fails, or the μ-law decode degrades to empty output; for valid
partial audio it buffers into that session only — history, scalers
and models are untouched and no other session's entries change — and
a completed window always emits a record. -/
theorem process_audio_message_drop_cases (b64 : String → Option (List Nat))
    (oracle : List ℚ → Option (List (String × ℚ))) (outcome : ModelOutcome)
    (now : ℚ) (svc : BiomarkerService) (msg : AudioMessage) :
    (msg.type ≠ some "audio" →
      process_audio_message b64 oracle outcome now svc msg = (svc, none)) ∧
    (msg.chainRunId = none ∨ msg.chainRunId = some "" →
      process_audio_message b64 oracle outcome now svc msg = (svc, none)) ∧
    (msg.audio = none ∨ msg.audio = some "" →
      process_audio_message b64 oracle outcome now svc msg = (svc, none)) ∧
    (b64 (msg.audio.getD "") = none →
      process_audio_message b64 oracle outcome now svc msg = (svc, none)) ∧
    (b64 (msg.audio.getD "") = some [] →
      process_audio_message b64 oracle outcome now svc msg = (svc, none)) ∧
    (∀ cid a bytes, msg.type = some "audio" → msg.chainRunId = some cid →
      cid ≠ "" → msg.audio = some a → a ≠ "" → b64 a = some bytes →
      bytes ≠ [] →
      ((((svc.audio_buffers cid).getD AudioBuffer.init).add_frame
          (decode_mulaw bytes)).2 = false →
        (process_audio_message b64 oracle outcome now svc msg).2 = none ∧
        (process_audio_message b64 oracle outcome now svc msg).1.risk_assessment
            = svc.risk_assessment ∧
        (process_audio_message b64 oracle outcome now svc msg).1.audio_buffers cid
            = some (((svc.audio_buffers cid).getD AudioBuffer.init).add_frame
                (decode_mulaw bytes)).1 ∧
        (∀ k, k ≠ cid →
          (process_audio_message b64 oracle outcome now svc msg).1.audio_buffers k
              = svc.audio_buffers k ∧
          (process_audio_message b64 oracle outcome now svc msg).1.active_sessions k
              = svc.active_sessions k)) ∧
      ((((svc.audio_buffers cid).getD AudioBuffer.init).add_frame
          (decode_mulaw bytes)).2 = true →
        ((process_audio_message b64 oracle outcome now svc msg).2).isSome
          = true)) := by
  refine ⟨fun h => process_drop _ _ _ _ _ _ (Or.inl h),
          fun h => process_drop _ _ _ _ _ _ (by tauto),
          fun h => process_drop _ _ _ _ _ _ (by tauto),
          fun h => process_drop _ _ _ _ _ _ (by tauto),
          fun h => process_drop _ _ _ _ _ _ (by tauto),
          fun cid a bytes h1 h2 h3 h4 h5 h6 h7 => ?_⟩
  have hrun := process_run b64 oracle outcome now svc msg cid a bytes
    h1 h2 h3 h4 h5 h6 h7
  rw [hrun]
  exact ⟨fun hf => sessionStep_belowCapacity oracle outcome now svc msg cid _ hf,
         fun hf => sessionStep_full oracle outcome now svc msg cid _ hf⟩

/-- Witness for C7: a ping is dropped with the state unchanged, and a
first audio chunk for a fresh session buffers without emitting. -/
theorem process_audio_message_drop_cases_witness :
    (msgPing.type ≠ some "audio") ∧
    process_audio_message b64ZeroByte oracleNone .arrayFault 0 svc0 msgPing
      = (svc0, none) ∧
    ((((svc0.audio_buffers "A").getD AudioBuffer.init).add_frame
        (decode_mulaw [0])).2 = false) ∧
    (process_audio_message b64ZeroByte oracleNone .arrayFault 0 svc0 msgAudioA).2
      = none := by
  have h := process_audio_message_drop_cases b64ZeroByte oracleNone
    .arrayFault 0 svc0 msgPing
  have h2 := process_audio_message_drop_cases b64ZeroByte oracleNone
    .arrayFault 0 svc0 msgAudioA
  have ht : msgPing.type ≠ some "audio" := by
    simp [msgPing]
  have hfalse : (((svc0.audio_buffers "A").getD AudioBuffer.init).add_frame
      (decode_mulaw [0])).2 = false := by
    have hb : (svc0.audio_buffers "A").getD AudioBuffer.init
        = AudioBuffer.init := rfl
    rw [hb, (add_frame_length AudioBuffer.init (decode_mulaw [0])).2]
    simp [AudioBuffer.init, decode_mulaw]
  refine ⟨ht, h.1 ht, hfalse, ?_⟩
  exact ((h2.2.2.2.2.2 "A" "x" [0] rfl rfl (by decide) rfl (by decide) rfl
    (by decide)).1 hfalse).1

/-! ## C8: session isolation -/

/-- C8: processing any audio message carrying session id `A` leaves
every component of any other session `B`'s state — buffer, session
record, feature history, scaler, model — unchanged. -/
theorem session_isolation (b64 : String → Option (List Nat))
    (oracle : List ℚ → Option (List (String × ℚ))) (outcome : ModelOutcome)
    (now : ℚ) (svc : BiomarkerService) (msg : AudioMessage) (A B : String)
    (hA : msg.chainRunId = some A) (hBA : B ≠ A) :
    (process_audio_message b64 oracle outcome now svc msg).1.audio_buffers B
        = svc.audio_buffers B ∧
    (process_audio_message b64 oracle outcome now svc msg).1.active_sessions B
        = svc.active_sessions B ∧
    (process_audio_message b64 oracle outcome now svc msg).1.risk_assessment.feature_history B
        = svc.risk_assessment.feature_history B ∧
    (process_audio_message b64 oracle outcome now svc msg).1.risk_assessment.scalers B
        = svc.risk_assessment.scalers B ∧
    (process_audio_message b64 oracle outcome now svc msg).1.risk_assessment.models B
        = svc.risk_assessment.models B := by
  rcases process_cases b64 oracle outcome now svc msg with h | ⟨cid, bytes, hcid, h⟩
  · rw [h]
    exact ⟨rfl, rfl, rfl, rfl, rfl⟩
  · have hca : cid = A := by
      rw [hcid] at hA
      exact (Option.some.injEq _ _).mp hA
    subst hca
    rw [h]
    exact sessionStep_frame oracle outcome now svc msg cid _ B hBA

/-- Witness for C8: an audio message for `"A"` does not touch
session `"B"` of a fresh service. -/
theorem session_isolation_witness :
    (msgAudioA.chainRunId = some "A") ∧ ("B" ≠ "A") ∧
    (process_audio_message b64ZeroByte oracleNone .arrayFault 0 svc0
        msgAudioA).1.audio_buffers "B" = svc0.audio_buffers "B" ∧
    (process_audio_message b64ZeroByte oracleNone .arrayFault 0 svc0
        msgAudioA).1.risk_assessment.feature_history "B"
      = svc0.risk_assessment.feature_history "B" := by
  have h := session_isolation b64ZeroByte oracleNone .arrayFault 0 svc0
    msgAudioA "A" "B" rfl (by decide)
  exact ⟨rfl, by decide, h.1, h.2.2.1⟩

/-! ## C10: append-before-score -/

/-- C10: `update_patient_model` appends the incoming vector before
fitting or scoring: for every outcome (including both fault kinds and
warming-up) the new history is the appended-and-trimmed one, its last
element is the incoming vector, and its length is
`min (old + 1) 100`; consequently the `n` field of any emitted risk
record equals the post-update history length of its session — the
faulted window is counted and never rolled back. -/
theorem history_append_before_score (ra : RiskAssessment) (pid : String)
    (features : List (String × ℚ)) (outcome : ModelOutcome)
    (b64 : String → Option (List Nat))
    (oracle : List ℚ → Option (List (String × ℚ))) (now : ℚ)
    (svc : BiomarkerService) (msg : AudioMessage) :
    ((update_patient_model ra pid features outcome).1.feature_history pid
        = historyAppend (ra.feature_history pid) (features.map Prod.snd)) ∧
    (((update_patient_model ra pid features outcome).1.feature_history pid).getLast?
        = some (features.map Prod.snd)) ∧
    (((update_patient_model ra pid features outcome).1.feature_history pid).length
        = min ((ra.feature_history pid).length + 1) max_history) ∧
    (∀ r, (process_audio_message b64 oracle outcome now svc msg).2 = some r →
      r.n = ((process_audio_message b64 oracle outcome now svc
              msg).1.risk_assessment.feature_history r.chainRunId).length) := by
  refine ⟨update_patient_model_history ra pid features outcome, ?_, ?_, ?_⟩
  · rw [update_patient_model_history]
    exact historyAppend_getLast _ _
  · rw [update_patient_model_history]
    exact historyAppend_length _ _
  · intro r hr
    rcases process_cases b64 oracle outcome now svc msg with h | ⟨cid, bytes, hcid, h⟩
    · rw [h] at hr
      exact absurd hr (by simp)
    · rw [h] at hr ⊢
      obtain ⟨hchain, hn, _⟩ := sessionStep_emits oracle outcome now svc msg cid _ r hr
      rw [hchain]
      exact hn

/-- Witness for C10: one more byte completes the window of
`svcAlmost`; the emitted record's `n` equals the post-update history
length of its session even though the sklearn call faulted. -/
theorem history_append_before_score_witness :
    ∃ r, (process_audio_message b64ZeroByte oracleNone .arrayFault 0 svcAlmost
            msgAudioA).2 = some r ∧
      r.n = ((process_audio_message b64ZeroByte oracleNone .arrayFault 0 svcAlmost
              msgAudioA).1.risk_assessment.feature_history r.chainRunId).length := by
  have hb : (svcAlmost.audio_buffers "A").getD AudioBuffer.init = bufAlmost := by
    have : svcAlmost.audio_buffers "A" = some bufAlmost := by
      show setKey (fun _ => none) "A" (some bufAlmost) "A" = some bufAlmost
      exact setKey_self _ _ _
    rw [this, Option.getD_some]
  have hlenA : bufAlmost.buffer.length = 23999 := by
    show (List.replicate 23999 (1 : ℚ)).length = 23999
    exact List.length_replicate _ _
  have hflag : (((svcAlmost.audio_buffers "A").getD AudioBuffer.init).add_frame
      (decode_mulaw [0])).2 = true := by
    rw [hb, (add_frame_length bufAlmost (decode_mulaw [0])).2]
    have h1 : (decode_mulaw [0]).length = 1 := rfl
    have h2 : bufAlmost.buffer_size = 24000 := rfl
    rw [h1, h2, hlenA]
    decide
  have hrun := process_run b64ZeroByte oracleNone .arrayFault 0 svcAlmost
    msgAudioA "A" "x" [0] rfl rfl (by decide) rfl (by decide) rfl (by decide)
  have hsome : ((process_audio_message b64ZeroByte oracleNone .arrayFault 0
      svcAlmost msgAudioA).2).isSome = true := by
    rw [hrun]
    exact sessionStep_full oracleNone .arrayFault 0 svcAlmost msgAudioA "A" _ hflag
  obtain ⟨r, hr⟩ := Option.isSome_iff_exists.mp hsome
  exact ⟨r, hr, (history_append_before_score RiskAssessment.init "A" [] .arrayFault
    b64ZeroByte oracleNone 0 svcAlmost msgAudioA).2.2.2 r hr⟩

end Biomarker
